import Mathlib

/-!
Verification of the analytics backend's aggregation and range-resolution
subsystem (src/src/lib/db.ts, src/src/routes/reports.route.ts,
src/src/routes/track.route.ts and the track-route variant in
src/unnamed/part_004).

Modelling conventions:
* A JavaScript `Date` is its epoch-millisecond value, modelled as `Int`.
  The server process is assumed to run in the UTC timezone (the usual
  deployment for this service), so the local-time accessors
  `getDate`/`getMonth`/`getFullYear` coincide with their UTC variants.
* ECMAScript day-number/civil-date conversion is modelled with the standard
  proleptic-Gregorian conversion functions (`civilFromDays`,
  `daysFromCivil`).  `Int` division `/` here is Euclidean division, which
  for the positive literal divisors used below equals floor division,
  matching ECMAScript's `Math.floor`-style day arithmetic.
* Loosely-typed JSON payload fields are modelled after the normalization
  the source applies to them (`asString`, `asNumber`, `asDate`): a field
  holds `Option τ`, `none` standing for "absent, empty, or unparsable".
  A query-string date field is `Option (Option Int)`: the outer level is
  "the parameter is present and non-empty" (JS truthiness of the string),
  the inner level is "it parses as a timestamp".
* JS numbers that undergo division/rounding are modelled as `ℚ`.
* Randomness (`randomUUID`) and the clock (`new Date()`) are passed in as
  explicit arguments (`freshId`, `now`); a function that reads the clock
  several times receives a `clock : Nat → Int` enumerating those readings,
  in program order.
-/

/-! ## Time model -/

/-- Milliseconds per UTC day. -/
def msPerDay : Int := 86400000

/-- Civil (proleptic Gregorian) date: year, month `1..12`, day `1..31`. -/
structure CivilDate where
  year : Int
  month : Int
  day : Int
deriving DecidableEq, Repr

/-- Days-since-epoch to civil date (Gregorian calendar, the conversion the
ECMAScript `Date` getters perform). -/
def civilFromDays (z0 : Int) : CivilDate :=
  let z := z0 + 719468
  let era := z / 146097
  let doe := z - era * 146097
  let yoe := (doe - doe / 1460 + doe / 36524 - doe / 146096) / 365
  let y := yoe + era * 400
  let doy := doe - (365 * yoe + yoe / 4 - yoe / 100)
  let mp := (5 * doy + 2) / 153
  let d := doy - (153 * mp + 2) / 5 + 1
  let m := if mp < 10 then mp + 3 else mp - 9
  ⟨if m ≤ 2 then y + 1 else y, m, d⟩

/-- Civil date to days-since-epoch.  `m` must be in `1..12`; `d` may lie
outside `1..31`, in which case it acts as an offset from the first of the
month — exactly ECMAScript's `MakeDay` normalization (`Date.UTC(y, m, 33)`
rolls into the next month). -/
def daysFromCivil (y0 m d : Int) : Int :=
  let y := if m ≤ 2 then y0 - 1 else y0
  let era := y / 400
  let yoe := y - era * 400
  let mp := if m > 2 then m - 3 else m + 9
  let doy := (153 * mp + 2) / 5 + d - 1
  let doe := yoe * 365 + yoe / 4 - yoe / 100 + doy
  era * 146097 + doe - 719468

/-- Millisecond timestamp of the day `t` falls in (ECMAScript `Day(t)`). -/
def dayNumber (t : Int) : Int := t / msPerDay

/-- ECMAScript `TimeWithinDay(t)`: milliseconds since the start of `t`'s UTC
day, always in `[0, msPerDay)`. -/
def msOfDay (t : Int) : Int := t % msPerDay

/-- `getUTCFullYear()` of a timestamp. -/
def jsGetFullYear (t : Int) : Int := (civilFromDays (dayNumber t)).year

/-- `getUTCMonth()` of a timestamp: 0-based month index. -/
def jsGetMonth (t : Int) : Int := (civilFromDays (dayNumber t)).month - 1

/-- `getUTCDate()` of a timestamp: day of month, `1..31`. -/
def jsGetDate (t : Int) : Int := (civilFromDays (dayNumber t)).day

/-- `Date.UTC(y, monthIndex, day)` plus a time-of-day in milliseconds, with
ECMAScript's normalization of an out-of-range month index (`y` and
`monthIndex` combine through the linear month count `y * 12 + monthIndex`)
and of an out-of-range day (handled linearly by `daysFromCivil`). -/
def jsDateUTC (y monthIndex d ms : Int) : Int :=
  let ym := y * 12 + monthIndex
  daysFromCivil (ym / 12) (ym % 12 + 1) d * msPerDay + ms

/-- `d.setDate(n)`: replace the day-of-month by `n`.  ECMAScript defines
`MakeDay(y, m, dt)` as the day number of the first of month `(y, m)` plus
`dt - 1`, so replacing the day-of-month `d` by `n` moves the timestamp by
exactly `(n - d)` whole days; the embedding uses that linear form. -/
def jsSetDate (t n : Int) : Int := t + (n - jsGetDate t) * msPerDay

/-- `d.setMonth(n)`: replace the (0-based) month index by `n`, keeping the
day-of-month and time-of-day, with ECMAScript normalization. -/
def jsSetMonth (t n : Int) : Int :=
  jsDateUTC (jsGetFullYear t) n (jsGetDate t) (msOfDay t)

/-- `d.setFullYear(y)`: replace the year, keeping month index, day-of-month
and time-of-day, with ECMAScript normalization. -/
def jsSetFullYear (t y : Int) : Int :=
  jsDateUTC y (jsGetMonth t) (jsGetDate t) (msOfDay t)

/-! ## Range resolver (src/src/lib/db.ts, `resolveDateRange` and friends) -/

/-- `StatsPeriod` from db.ts. -/
inductive StatsPeriod where
  | day | week | month | year | custom
deriving DecidableEq, Repr

/-- `StatsRangeInput` from db.ts, after field normalization.  A date field
is `Option (Option Int)`: outer `none` = the string is absent or empty
(falsy), inner `none` = present but not parseable as a timestamp. -/
structure StatsRangeInput where
  period : Option StatsPeriod
  fromTs : Option (Option Int)
  toTs : Option (Option Int)
deriving DecidableEq, Repr

/-- Closed datetime interval, both bounds in epoch milliseconds. -/
structure DateRange where
  gte : Int
  lte : Int
deriving DecidableEq, Repr

/-- `asDate` from db.ts applied to a raw optional field: a falsy value and
an unparsable string both resolve to `undefined`. -/
def asDate (v : Option (Option Int)) : Option Int := v.bind id

/-- `resolveDateRange` from db.ts.  `now` is the single `new Date()` this
call evaluates. -/
def resolveDateRange (now : Int) (input : StatsRangeInput) : Option DateRange :=
  match input.period with
  | none => none
  | some StatsPeriod.custom =>
    let fromD := asDate input.fromTs
    let toD := (asDate input.toTs).getD now
    match fromD with
    | none => none
    | some f => if f > toD then none else some ⟨f, toD⟩
  | some StatsPeriod.day => some ⟨jsSetDate now (jsGetDate now - 1), now⟩
  | some StatsPeriod.week => some ⟨jsSetDate now (jsGetDate now - 7), now⟩
  | some StatsPeriod.month => some ⟨jsSetMonth now (jsGetMonth now - 1), now⟩
  | some StatsPeriod.year => some ⟨jsSetFullYear now (jsGetFullYear now - 1), now⟩

/-- `resolveDateRangeOrAll` from db.ts: epoch (`1970-01-01T00:00:00Z` = `0`)
up to now when no range resolves. -/
def resolveDateRangeOrAll (now : Int) (input : StatsRangeInput) : DateRange :=
  (resolveDateRange now input).getD ⟨0, now⟩

/-- `toUtcDateOnly` from db.ts: `Date.UTC(getUTCFullYear, getUTCMonth,
getUTCDate)`, i.e. the timestamp floored to the start of its UTC day. -/
def toUtcDateOnly (t : Int) : Int := msPerDay * (t / msPerDay)

/-- `toDailyWhere` from db.ts: both bounds truncated to UTC calendar dates
for indexing into the day-keyed rollup table. -/
def toDailyWhere (range : Option DateRange) : Option DateRange :=
  range.map fun r => ⟨toUtcDateOnly r.gte, toUtcDateOnly r.lte⟩

/-! ## Payloads and storage (the Prisma tables of db.ts) -/

/-- A track payload after db.ts field normalization: each field carries the
result of the `asString` / `asNumber` / `asDate` coercion the source applies
to it (`none` = absent, empty/blank string, or unparsable). -/
structure Payload where
  sessionId : Option String := none
  session_id : Option String := none
  id : Option String := none
  timestamp : Option Int := none
  startTime : Option Int := none
  lastPingTime : Option Int := none
  duration : Option ℚ := none
  path : Option String := none
  pagePath : Option String := none
  userAgent : Option String := none
  deviceType : Option String := none
  browser : Option String := none
  os : Option String := none
  country : Option String := none
  city : Option String := none
  ipAddress : Option String := none
  ip : Option String := none
  name : Option String := none
  goalName : Option String := none
  value : Option ℚ := none
  elementTag : Option String := none
  elementId : Option String := none
  elementClassAttr : Option String := none
  elementText : Option String := none
  x : Option ℚ := none
  y : Option ℚ := none
deriving DecidableEq, Repr

/-- Row of the `sessions` table. -/
structure SessionRow where
  id : String
  startTime : Int
  lastPingTime : Int
  duration : ℚ
  userAgent : Option String
  deviceType : Option String
  browser : Option String
  os : Option String
  country : Option String
  city : Option String
  ipAddress : Option String
deriving DecidableEq, Repr

/-- Row of the `page_views` table (`metadata` keeps the whole payload). -/
structure PageViewRow where
  sessionId : String
  path : String
  timestamp : Int
  metadata : Payload
deriving DecidableEq, Repr

/-- Row of the `pings` table. -/
structure PingRow where
  sessionId : String
  duration : ℚ
  pagePath : Option String
  timestamp : Int
  metadata : Payload
deriving DecidableEq, Repr

/-- Row of the `clicks` table. -/
structure ClickRow where
  sessionId : String
  elementTag : Option String
  elementId : Option String
  elementClassAttr : Option String
  elementText : Option String
  x : ℚ
  y : ℚ
  pagePath : String
  timestamp : Int
  metadata : Payload
deriving DecidableEq, Repr

/-- Row of the `goals` table (`sessionId` is optional: anonymous goals). -/
structure GoalRow where
  sessionId : Option String
  name : String
  value : Option ℚ
  path : Option String
  timestamp : Int
  metadata : Payload
deriving DecidableEq, Repr

/-- The five per-metric counters of the rollup (`DailyMetricField`). -/
inductive DailyMetricField where
  | sessions | pageViews | pings | clicks | goals
deriving DecidableEq, Repr

/-- Row of the `daily_stats` rollup table, keyed by `date` (midnight-UTC
timestamp of the day). -/
structure DailyStatsRow where
  date : Int
  sessions : Nat
  pageViews : Nat
  pings : Nat
  clicks : Nat
  goals : Nat
deriving DecidableEq, Repr

/-- Read one counter of a rollup row. -/
def DailyStatsRow.metric (r : DailyStatsRow) : DailyMetricField → Nat
  | .sessions => r.sessions
  | .pageViews => r.pageViews
  | .pings => r.pings
  | .clicks => r.clicks
  | .goals => r.goals

/-- Increment one counter of a rollup row by 1. -/
def DailyStatsRow.inc (r : DailyStatsRow) : DailyMetricField → DailyStatsRow
  | .sessions => { r with sessions := r.sessions + 1 }
  | .pageViews => { r with pageViews := r.pageViews + 1 }
  | .pings => { r with pings := r.pings + 1 }
  | .clicks => { r with clicks := r.clicks + 1 }
  | .goals => { r with goals := r.goals + 1 }

/-- The `create` branch of the rollup upsert: a fresh row with the tracked
metric at 1 and every other counter at 0. -/
def newDailyRow (date : Int) (m : DailyMetricField) : DailyStatsRow :=
  { date := date
    sessions := if m = .sessions then 1 else 0
    pageViews := if m = .pageViews then 1 else 0
    pings := if m = .pings then 1 else 0
    clicks := if m = .clicks then 1 else 0
    goals := if m = .goals then 1 else 0 }

/-- The whole persistent store. -/
structure Storage where
  sessions : List SessionRow
  pageViews : List PageViewRow
  pings : List PingRow
  clicks : List ClickRow
  goals : List GoalRow
  dailyStats : List DailyStatsRow
deriving DecidableEq, Repr

/-- Empty storage. -/
def Storage.empty : Storage := ⟨[], [], [], [], [], []⟩

/-! ## Event recorder (db.ts) -/

/-- `prisma.dailyStats.upsert` on the unique key `date`: increment the row
with that date if one exists (the key is unique, so at most one does),
otherwise append a fresh row. -/
def upsertDaily (m : DailyMetricField) (date : Int) : List DailyStatsRow → List DailyStatsRow
  | [] => [newDailyRow date m]
  | r :: rs => if r.date = date then r.inc m :: rs else r :: upsertDaily m date rs

/-- `incrementDailyMetric` from db.ts: bump `metric` on the rollup row of
the UTC day of `at`. -/
def incrementDailyMetric (st : Storage) (m : DailyMetricField) (at' : Int) : Storage :=
  { st with dailyStats := upsertDaily m (toUtcDateOnly at') st.dailyStats }

/-- `resolveSessionId` from db.ts: alias priority
`sessionId → session_id → id → randomUUID()`; the random id is the explicit
`fresh` argument. -/
def resolveSessionId (p : Payload) (fresh : String) : String :=
  ((p.sessionId <|> p.session_id) <|> p.id).getD fresh

/-- Whether a session with this id exists (`prisma.session.findUnique`). -/
def Storage.hasSession (st : Storage) (sid : String) : Bool :=
  st.sessions.any fun s => s.id = sid

/-- The `startTime` `ensureSession` resolves: `startTime` alias, else
`timestamp` alias, else `new Date()`. -/
def resolvedStartTime (p : Payload) (now : Int) : Int :=
  (p.startTime <|> p.timestamp).getD now

/-- The `data` record of `prisma.session.update` in `ensureSession`, applied
to the stored row.  A Prisma `update` silently skips fields whose value is
`undefined`, so an optional string field absent from the payload keeps its
stored value; `lastPingTime` and `duration` are always defined and always
written; `id` and `startTime` are not in the record and stay untouched. -/
def sessionUpdateData (p : Payload) (now : Int) (s : SessionRow) : SessionRow :=
  let startTime := resolvedStartTime p now
  { s with
      lastPingTime := (p.lastPingTime <|> p.timestamp).getD startTime
      duration := p.duration.getD 0
      userAgent := p.userAgent <|> s.userAgent
      deviceType := p.deviceType <|> s.deviceType
      browser := p.browser <|> s.browser
      os := p.os <|> s.os
      country := p.country <|> s.country
      city := p.city <|> s.city
      ipAddress := (p.ipAddress <|> p.ip) <|> s.ipAddress }

/-- The `data` record of `prisma.session.create` in `ensureSession` (in a
`create`, an `undefined` optional field becomes NULL). -/
def sessionCreateData (sid : String) (p : Payload) (now : Int) : SessionRow :=
  let startTime := resolvedStartTime p now
  { id := sid
    startTime := startTime
    lastPingTime := (p.lastPingTime <|> p.timestamp).getD startTime
    duration := p.duration.getD 0
    userAgent := p.userAgent
    deviceType := p.deviceType
    browser := p.browser
    os := p.os
    country := p.country
    city := p.city
    ipAddress := p.ipAddress <|> p.ip }

/-- `ensureSession` from db.ts.  Returns the updated storage, whether the
session was created, and the resolved `startTime`. -/
def ensureSession (st : Storage) (sid : String) (p : Payload) (now : Int) :
    Storage × Bool × Int :=
  if st.hasSession sid then
    ({ st with
        sessions := st.sessions.map fun s =>
          if s.id = sid then sessionUpdateData p now s else s },
      false, resolvedStartTime p now)
  else
    ({ st with sessions := st.sessions ++ [sessionCreateData sid p now] },
      true, resolvedStartTime p now)

/-- `trackSession` from db.ts: upsert the session; only a brand-new session
bumps the `sessions` rollup, at its `startTime`'s day. -/
def trackSession (st : Storage) (p : Payload) (now : Int) (fresh : String) : Storage :=
  let sid := resolveSessionId p fresh
  let (st1, created, startTime) := ensureSession st sid p now
  if created then incrementDailyMetric st1 .sessions startTime else st1

/-- `trackPageView` from db.ts: upsert the session (the `created` flag is
ignored), insert the page-view row, bump the `pageViews` rollup at the
event's timestamp. -/
def trackPageView (st : Storage) (p : Payload) (now : Int) (fresh : String) : Storage :=
  let sid := resolveSessionId p fresh
  let (st1, _, _) := ensureSession st sid p now
  let timestamp := p.timestamp.getD now
  let st2 : Storage := { st1 with
    pageViews := st1.pageViews ++
      [{ sessionId := sid
         path := (p.path <|> p.pagePath).getD "/"
         timestamp := timestamp
         metadata := p }] }
  incrementDailyMetric st2 .pageViews timestamp

/-- `trackPing` from db.ts: upsert the session, insert the ping row, then
overwrite the session's `lastPingTime`/`duration` with the ping's values,
then bump the `pings` rollup. -/
def trackPing (st : Storage) (p : Payload) (now : Int) (fresh : String) : Storage :=
  let sid := resolveSessionId p fresh
  let (st1, _, _) := ensureSession st sid p now
  let timestamp := p.timestamp.getD now
  let duration := p.duration.getD 0
  let st2 : Storage := { st1 with
    pings := st1.pings ++
      [{ sessionId := sid
         duration := duration
         pagePath := p.pagePath <|> p.path
         timestamp := timestamp
         metadata := p }] }
  let st3 : Storage := { st2 with
    sessions := st2.sessions.map fun s =>
      if s.id = sid then { s with lastPingTime := timestamp, duration := duration }
      else s }
  incrementDailyMetric st3 .pings timestamp

/-- `trackClick` from db.ts. -/
def trackClick (st : Storage) (p : Payload) (now : Int) (fresh : String) : Storage :=
  let sid := resolveSessionId p fresh
  let (st1, _, _) := ensureSession st sid p now
  let timestamp := p.timestamp.getD now
  let st2 : Storage := { st1 with
    clicks := st1.clicks ++
      [{ sessionId := sid
         elementTag := p.elementTag
         elementId := p.elementId
         elementClassAttr := p.elementClassAttr
         elementText := p.elementText
         x := p.x.getD 0
         y := p.y.getD 0
         pagePath := (p.pagePath <|> p.path).getD "/"
         timestamp := timestamp
         metadata := p }] }
  incrementDailyMetric st2 .clicks timestamp

/-- `trackGoal` from db.ts: the session reference is optional and only the
`sessionId`/`session_id` aliases count; no session is created for an
anonymous goal. -/
def trackGoal (st : Storage) (p : Payload) (now : Int) : Storage :=
  let maybeSid := p.sessionId <|> p.session_id
  let st1 : Storage := match maybeSid with
    | some sid => (ensureSession st sid p now).1
    | none => st
  let timestamp := p.timestamp.getD now
  let st2 : Storage := { st1 with
    goals := st1.goals ++
      [{ sessionId := maybeSid
         name := (p.name <|> p.goalName).getD "goal"
         value := p.value
         path := p.path <|> p.pagePath
         timestamp := timestamp
         metadata := p }] }
  incrementDailyMetric st2 .goals timestamp

/-- One track call: the operation kind, its payload, the `new Date()` the
call would read, and the id `randomUUID()` would return. -/
inductive TrackKind where
  | session | view | ping | click | goal
deriving DecidableEq, Repr

/-- A single recorder invocation with its environment. -/
structure Call where
  kind : TrackKind
  payload : Payload
  now : Int
  freshId : String
deriving DecidableEq, Repr

/-- Dispatch one call. -/
def step (st : Storage) (c : Call) : Storage :=
  match c.kind with
  | .session => trackSession st c.payload c.now c.freshId
  | .view => trackPageView st c.payload c.now c.freshId
  | .ping => trackPing st c.payload c.now c.freshId
  | .click => trackClick st c.payload c.now c.freshId
  | .goal => trackGoal st c.payload c.now

/-- Run a sequence of successful track calls. -/
def run (st : Storage) : List Call → Storage
  | [] => st
  | c :: cs => run (step st c) cs

/-! ## Rollup reads and stats/reports readers (db.ts) -/

/-- Whether a rollup row's `date` satisfies an optional daily `where`
clause (`none` = no date filter). -/
def inDailyRange (w : Option DateRange) (d : Int) : Bool :=
  match w with
  | none => true
  | some r => decide (r.gte ≤ d) && decide (d ≤ r.lte)

/-- `prisma.dailyStats.aggregate({ where, _sum: { metric } })`: sum of one
counter over the rows in range (0 when none match, mirroring `?? 0`). -/
def sumDailyMetric (rows : List DailyStatsRow) (m : DailyMetricField)
    (w : Option DateRange) : Nat :=
  ((rows.filter fun r => inDailyRange w r.date).map fun r => r.metric m).sum

/-- `getSessionsCount` from db.ts; `now` is this call's `new Date()`. -/
def getSessionsCount (st : Storage) (now : Int) (input : StatsRangeInput) : Nat :=
  sumDailyMetric st.dailyStats .sessions (toDailyWhere (resolveDateRange now input))

/-- `getPageViewsCount` from db.ts. -/
def getPageViewsCount (st : Storage) (now : Int) (input : StatsRangeInput) : Nat :=
  sumDailyMetric st.dailyStats .pageViews (toDailyWhere (resolveDateRange now input))

/-- `getPingsCount` from db.ts. -/
def getPingsCount (st : Storage) (now : Int) (input : StatsRangeInput) : Nat :=
  sumDailyMetric st.dailyStats .pings (toDailyWhere (resolveDateRange now input))

/-- `getClicksCount` from db.ts. -/
def getClicksCount (st : Storage) (now : Int) (input : StatsRangeInput) : Nat :=
  sumDailyMetric st.dailyStats .clicks (toDailyWhere (resolveDateRange now input))

/-- `getGoalsCount` from db.ts. -/
def getGoalsCount (st : Storage) (now : Int) (input : StatsRangeInput) : Nat :=
  sumDailyMetric st.dailyStats .goals (toDailyWhere (resolveDateRange now input))

/-- The `totals` record of `getStatsByRange`. -/
structure Totals where
  sessions : Nat
  pageViews : Nat
  pings : Nat
  clicks : Nat
  goals : Nat
deriving DecidableEq, Repr

/-- `getStatsByRange` from db.ts: the five metric getters run sequentially,
and each one calls `resolveDateRange`, which reads `new Date()` afresh —
`clock i` is the clock value the `i`-th getter observes. -/
def getStatsByRange (st : Storage) (input : StatsRangeInput) (clock : Nat → Int) : Totals :=
  { sessions := getSessionsCount st (clock 0) input
    pageViews := getPageViewsCount st (clock 1) input
    pings := getPingsCount st (clock 2) input
    clicks := getClicksCount st (clock 3) input
    goals := getGoalsCount st (clock 4) input }

/-- ECMAScript `Math.round(q)` = `⌊q + 1/2⌋` (ties round up). -/
def jsRound (q : ℚ) : ℤ := ⌊q + 1 / 2⌋

/-- Number.prototype.toFixed(4) followed by `Number(...)`: round to 4
decimal places, ties to the larger candidate — `⌊q·10⁴ + 1/2⌋ / 10⁴`. -/
def round4 (q : ℚ) : ℚ := (jsRound (q * 10000) : ℚ) / 10000

/-- Sessions whose `startTime` falls in the (optional) range — the raw
`prisma.session.aggregate` filter of `getReportOverview`. -/
def sessionsInRange (st : Storage) (w : Option DateRange) : List SessionRow :=
  st.sessions.filter fun s =>
    match w with
    | none => true
    | some r => decide (r.gte ≤ s.startTime) && decide (s.startTime ≤ r.lte)

/-- Maximum of a list of rationals, `0` when empty (`_max ?? 0`). -/
def listMaxQ : List ℚ → ℚ
  | [] => 0
  | d :: ds => ds.foldl max d

/-- The `engagement` record of `getReportOverview`. -/
structure Engagement where
  clickThroughRate : ℚ
  goalsPerSession : ℚ
  avgSessionDuration : ℤ
  maxSessionDuration : ℚ
deriving DecidableEq, Repr

/-- The response of `getReportOverview`. -/
structure Overview where
  totals : Totals
  engagement : Engagement
deriving DecidableEq, Repr

/-- `getReportOverview` from db.ts.  The function resolves the range once
for the raw duration aggregate (`clock 0`) and additionally each of the
five count getters resolves its own (`clock 1 .. clock 5`).
`avgSessionDuration` is `Math.round` of the mean duration (`0` when no
session is in range); `maxSessionDuration` is the max (`?? 0`). -/
def getReportOverview (st : Storage) (input : StatsRangeInput) (clock : Nat → Int) :
    Overview :=
  let range := resolveDateRange (clock 0) input
  let sessions := getSessionsCount st (clock 1) input
  let pageViews := getPageViewsCount st (clock 2) input
  let pings := getPingsCount st (clock 3) input
  let clicks := getClicksCount st (clock 4) input
  let goals := getGoalsCount st (clock 5) input
  let durations := (sessionsInRange st range).map fun s => s.duration
  { totals := ⟨sessions, pageViews, pings, clicks, goals⟩
    engagement :=
      { clickThroughRate :=
          if pageViews > 0 then round4 ((clicks : ℚ) / (pageViews : ℚ)) else 0
        goalsPerSession :=
          if sessions > 0 then round4 ((goals : ℚ) / (sessions : ℚ)) else 0
        avgSessionDuration :=
          if durations.isEmpty then 0
          else jsRound (durations.sum / (durations.length : ℚ))
        maxSessionDuration := listMaxQ durations } }

/-- Rollup rows returned by `getReportTimeseries` from db.ts: the rows in
the (date-truncated) range, ordered by `date` ascending.  The source then
formats each `date` as its ISO `YYYY-MM-DD` string; the model keeps the
midnight-UTC timestamp, which determines that string. -/
def getReportTimeseriesRows (st : Storage) (now : Int) (input : StatsRangeInput) :
    List DailyStatsRow :=
  let w := toDailyWhere (resolveDateRange now input)
  (st.dailyStats.filter fun r => inDailyRange w r.date).mergeSort
    fun a b => a.date ≤ b.date

/-- The single-metric shape of `getReportTimeseries` (a `metric` query
parameter was given): date plus that metric's value. -/
def getReportTimeseriesMetric (st : Storage) (now : Int) (input : StatsRangeInput)
    (m : DailyMetricField) : List (Int × Nat) :=
  (getReportTimeseriesRows st now input).map fun r => (r.date, r.metric m)

/-- Case-insensitive substring test, modelling SQL `ILIKE '%pat%'` (both
sides lowercased characterwise, then a substring search). -/
def icontains (hay pat : String) : Bool :=
  (hay.toList.map Char.toLower).tails.any fun t =>
    (pat.toList.map Char.toLower).isPrefixOf t

/-- The `CASE` expression of `getReportDevices` in db.ts: explicit non-empty
`device_type` (lowercased) → user-agent heuristics (`unknown` when the user
agent is NULL or empty; `tablet` on ipad/tablet; `mobile` on
mobile/android/iphone; else `desktop`). -/
def classifyDevice (deviceType userAgent : Option String) : String :=
  match deviceType with
  | some dt =>
    if dt ≠ "" then dt.toLower else classifyByUserAgent userAgent
  | none => classifyByUserAgent userAgent
where
  /-- The user-agent fallback rows of the same `CASE` expression. -/
  classifyByUserAgent : Option String → String
    | none => "unknown"
    | some ua =>
      if ua = "" then "unknown"
      else if icontains ua "ipad" || icontains ua "tablet" then "tablet"
      else if icontains ua "mobile" || icontains ua "android" || icontains ua "iphone" then
        "mobile"
      else "desktop"

/-- `getReportDevices` from db.ts: group the sessions whose `start_time`
falls in the resolved (or epoch-to-now) range by device class and count
them.  The SQL orders groups by count descending; group order is irrelevant
to the properties below, so the model lists classes in first-seen order. -/
def getReportDevices (st : Storage) (now : Int) (input : StatsRangeInput) :
    List (String × Nat) :=
  let devs := (sessionsInRange st (some (resolveDateRangeOrAll now input))).map
    fun s => classifyDevice s.deviceType s.userAgent
  devs.dedup.map fun d => (d, devs.count d)

/-! ## HTTP layer models (reports.route.ts, track.route.ts) -/

/-- The range-related query-string parameters of a reports/stats request.
`period` is the raw string; the date fields follow the same
present/parseable encoding as `StatsRangeInput`. -/
structure ReportQuery where
  period : Option String
  fromRaw : Option (Option Int)
  toRaw : Option (Option Int)
deriving DecidableEq, Repr

/-- Membership in `allowedPeriods` of reports.route.ts, as a parse. -/
def parsePeriod (s : String) : Option StatsPeriod :=
  if s = "day" then some .day
  else if s = "week" then some .week
  else if s = "month" then some .month
  else if s = "year" then some .year
  else if s = "custom" then some .custom
  else none

/-- `parseRangeQuery` from reports.route.ts: reject an unknown period, and
reject `period=custom` without a (non-empty) `from`; everything else is
passed through to the db layer untouched. -/
def parseRangeQuery (q : ReportQuery) : Except String StatsRangeInput :=
  match q.period with
  | some s =>
    match parsePeriod s with
    | none => .error "Invalid period. Use day, week, month, year or custom."
    | some p =>
      if p = .custom ∧ q.fromRaw = none then
        .error "Custom period requires from query parameter."
      else .ok ⟨some p, q.fromRaw, q.toRaw⟩
  | none => .ok ⟨none, q.fromRaw, q.toRaw⟩

/-- A reports/stats route handler's outcome on the range-validation path,
assuming the storage read itself succeeds: HTTP status, and the resolved
range the db-layer query then runs with (`none` on the 400 path;
`some none` = the query runs unbounded, over all time). -/
def handleReportRange (q : ReportQuery) (now : Int) : Nat × Option (Option DateRange) :=
  match parseRangeQuery q with
  | .error _ => (400, none)
  | .ok input => (200, some (resolveDateRange now input))

/-- An HTTP reply of a track route: status code, and whether the body is
`{success:true}` (`ok = true`) or `{error:string}` (`ok = false`). -/
structure HttpReply where
  status : Nat
  ok : Bool
deriving DecidableEq, Repr

/-- The handlers of src/src/routes/track.route.ts: the recorder promise is
NOT awaited, so the `try`/`catch` returns `{success:true}` with 200 before
the promise settles and a rejection can never reach the `catch` — the
reply does not depend on the recorder's outcome. -/
def trackRouteNoAwait (_recorder : Except String Unit) : HttpReply :=
  ⟨200, true⟩

/-- The handlers of the track-route variant in src/unnamed/part_004: the
recorder call is awaited, so a rejection reaches the `catch`, which replies
500 with `{error:string}`. -/
def trackRouteAwaited (recorder : Except String Unit) : HttpReply :=
  match recorder with
  | .ok _ => ⟨200, true⟩
  | .error _ => ⟨500, false⟩

/-- `trackPageView` cut after its `k`-th successful write, modelling a
storage failure at write `k + 1` (the call's writes run sequentially with
no surrounding transaction: 1 = session upsert, 2 = event insert,
3 = rollup increment; `k ≥ 3` is the fully successful call). -/
def trackPageViewPartial (st : Storage) (p : Payload) (now : Int) (fresh : String)
    (k : Nat) : Storage :=
  let sid := resolveSessionId p fresh
  if k = 0 then st else
  let (st1, _, _) := ensureSession st sid p now
  if k = 1 then st1 else
  let timestamp := p.timestamp.getD now
  let st2 : Storage := { st1 with
    pageViews := st1.pageViews ++
      [{ sessionId := sid
         path := (p.path <|> p.pagePath).getD "/"
         timestamp := timestamp
         metadata := p }] }
  if k = 2 then st2 else
  incrementDailyMetric st2 .pageViews timestamp

/-! ## Observers used by the statements below -/

/-- Sum of one rollup counter over exactly the rows keyed to date `d` (for a
reachable store the unique row of day `d`, or 0 when none exists). -/
def rollupAt (st : Storage) (m : DailyMetricField) (d : Int) : Nat :=
  ((st.dailyStats.filter fun r => r.date = d).map fun r => r.metric m).sum

/-- The stored `startTime` of session `sid`, when it exists. -/
def sessionStartTime (st : Storage) (sid : String) : Option Int :=
  (st.sessions.find? fun s => s.id = sid).map fun s => s.startTime

/-- The resolved `startTime` of every session a `trackSession` call of the
sequence creates (replaying the run): exactly the creations that bump the
`sessions` rollup. -/
def trackSessionStarts : Storage → List Call → List Int
  | _, [] => []
  | st, c :: cs =>
    (if c.kind = .session ∧ st.hasSession (resolveSessionId c.payload c.freshId) = false
      then [resolvedStartTime c.payload c.now] else []) ++
    trackSessionStarts (step st c) cs

/-- One calendar month earlier: same day-of-month and time-of-day, month
index decremented, with ECMAScript normalization of the resulting date —
the spec's "calendar-aware month subtraction". -/
def minusOneCalendarMonth (t : Int) : Int :=
  jsDateUTC (jsGetFullYear t) (jsGetMonth t - 1) (jsGetDate t) (msOfDay t)

/-- One calendar year earlier: same month index, day-of-month and
time-of-day, year decremented, with ECMAScript normalization. -/
def minusOneCalendarYear (t : Int) : Int :=
  jsDateUTC (jsGetFullYear t - 1) (jsGetMonth t) (jsGetDate t) (msOfDay t)

/-! ## Concrete fixtures used by witnesses and counterexamples -/

/-- Storage holding a single rollup row for day 0 with the given five
counters and no raw rows. -/
def stDayRollup (s pv pi c g : Nat) : Storage := ⟨[], [], [], [], [], [⟨0, s, pv, pi, c, g⟩]⟩

/-- A clock whose first reading falls just after midnight of day 1 and
whose later readings fall just after midnight of day 2. -/
def clockSkipsDay : Nat → Int := fun i => if i = 0 then msPerDay + 1 else 2 * msPerDay + 1

/-- Query input `{ period: "day" }`. -/
def inputDayPeriod : StatsRangeInput := ⟨some .day, none, none⟩

/-- Query input `{}` (no period: all time). -/
def inputAll : StatsRangeInput := ⟨none, none, none⟩

/-- A clock frozen at 0. -/
def zeroClock : Nat → Int := fun _ => 0

/-- A `POST /api/track/view` call holding only a timestamp: its session id
is freshly generated. -/
def viewCallFreshSession : Call := ⟨.view, { timestamp := some 1000 }, 1000, "s1"⟩

/-- First `trackSession` call for session `s1`. -/
def sessionCallA : Call := ⟨.session, { sessionId := some "s1", timestamp := some 1000 }, 1000, "f0"⟩

/-- Second `trackSession` call for the same session `s1`, a day later and
with a user agent. -/
def sessionCallB : Call :=
  ⟨.session, { sessionId := some "s1", userAgent := some "AgentB", timestamp := some 99999999 }, 5000, "f1"⟩

/-- A stored session with a known user agent and a nonzero duration. -/
def oldSession : SessionRow := ⟨"s1", 0, 0, 5, some "OldAgent", none, none, none, none, none, none⟩

/-- Storage holding just `oldSession`. -/
def stWithOldSession : Storage := ⟨[oldSession], [], [], [], [], []⟩

/-- A payload referencing session `s1` that omits `duration` and every
device/location field. -/
def omittingPayload : Payload := { sessionId := some "s1", timestamp := some 1000 }

/-- A page-view payload holding only a timestamp. -/
def pViewOnlyTs : Payload := { timestamp := some 1000 }

/-! ## Helper lemmas -/

theorem ensureSession_dailyStats (st : Storage) (sid : String) (p : Payload) (now : Int) :
    ((ensureSession st sid p now).1).dailyStats = st.dailyStats := by
  unfold ensureSession; split <;> rfl

theorem ensureSession_pageViews (st : Storage) (sid : String) (p : Payload) (now : Int) :
    ((ensureSession st sid p now).1).pageViews = st.pageViews := by
  unfold ensureSession; split <;> rfl

theorem ensureSession_pings (st : Storage) (sid : String) (p : Payload) (now : Int) :
    ((ensureSession st sid p now).1).pings = st.pings := by
  unfold ensureSession; split <;> rfl

theorem ensureSession_clicks (st : Storage) (sid : String) (p : Payload) (now : Int) :
    ((ensureSession st sid p now).1).clicks = st.clicks := by
  unfold ensureSession; split <;> rfl

theorem ensureSession_goals (st : Storage) (sid : String) (p : Payload) (now : Int) :
    ((ensureSession st sid p now).1).goals = st.goals := by
  unfold ensureSession; split <;> rfl

/-! ## C9 -/

/-- C9 (code_bug): the live handlers in src/src/routes/track.route.ts do
not `await` the recorder call, so a recorder failure still gets answered
`{success:true}` with 200 and never the specified 500 `{error}`; the
awaited variant in src/unnamed/part_004 answers 500 as the claim states. -/
theorem C9_track_route_failure_reply :
    trackRouteNoAwait (Except.error "database unavailable") = ⟨200, true⟩ ∧
    trackRouteAwaited (Except.error "database unavailable") = ⟨500, false⟩ :=
  ⟨rfl, rfl⟩

/-! ## C5 -/

/-- C5 (counterexample): the five metric sums of one `getStatsByRange`
request are NOT evaluated against the same resolved interval — each getter
re-resolves with its own `new Date()`.  With a rollup row on day 0 holding
`sessions = 1` and `pageViews = 1`, a `period=day` request whose clock
advances past midnight between the first two getters reports
`sessions = 1` but `pageViews = 0`, and the two resolved intervals differ. -/
theorem C5_counterexample :
    (getStatsByRange (stDayRollup 1 1 0 0 0) inputDayPeriod clockSkipsDay).sessions = 1 ∧
    (getStatsByRange (stDayRollup 1 1 0 0 0) inputDayPeriod clockSkipsDay).pageViews = 0 ∧
    resolveDateRange (clockSkipsDay 0) inputDayPeriod ≠
      resolveDateRange (clockSkipsDay 1) inputDayPeriod := by
  refine ⟨by decide, by decide, by decide⟩

/-- C5 (amended): each single `resolveDateRange` call captures one `now`
and yields `lte = now` with `gte` equal to `now` minus exactly one day
(86 400 000 ms), exactly seven days, one calendar month, or one calendar
year (calendar-aware, not fixed-duration); but `getStatsByRange` lets each
of its five getters resolve independently (`C5_counterexample`). -/
theorem C5_amended (now : Int) :
    resolveDateRange now ⟨some .day, none, none⟩ = some ⟨now - msPerDay, now⟩
  ∧ resolveDateRange now ⟨some .week, none, none⟩ = some ⟨now - 7 * msPerDay, now⟩
  ∧ resolveDateRange now ⟨some .month, none, none⟩ = some ⟨minusOneCalendarMonth now, now⟩
  ∧ resolveDateRange now ⟨some .year, none, none⟩ = some ⟨minusOneCalendarYear now, now⟩ := by
  refine ⟨?_, ?_, rfl, rfl⟩
  · show some (DateRange.mk (jsSetDate now (jsGetDate now - 1)) now) =
      some (DateRange.mk (now - msPerDay) now)
    simp only [jsSetDate, msPerDay, Option.some.injEq, DateRange.mk.injEq]
    exact ⟨by ring, trivial⟩
  · show some (DateRange.mk (jsSetDate now (jsGetDate now - 7)) now) =
      some (DateRange.mk (now - 7 * msPerDay) now)
    simp only [jsSetDate, msPerDay, Option.some.injEq, DateRange.mk.injEq]
    exact ⟨by ring, trivial⟩

/-! ## C3 -/

/-- C3 (counterexample): a failure of the rollup increment after the event
insert leaves a partial application: starting from empty storage, cutting
`trackPageView` after its second write leaves the page-view row stored
while the `pageViews` rollup for its day was never incremented (the full
three-write call would leave it at 1). -/
theorem C3_partial_write_counterexample :
    (trackPageViewPartial Storage.empty pViewOnlyTs 1000 "s1" 2).pageViews.length = 1 ∧
    rollupAt (trackPageViewPartial Storage.empty pViewOnlyTs 1000 "s1" 2) .pageViews
      (toUtcDateOnly 1000) = 0 ∧
    rollupAt (trackPageViewPartial Storage.empty pViewOnlyTs 1000 "s1" 3) .pageViews
      (toUtcDateOnly 1000) = 1 := by
  refine ⟨by decide, by decide, by decide⟩

/-- C3 (amended): a track call's writes run sequentially with no
surrounding transaction: the fully successful call equals the atomic
recorder step, but a call that fails at a later write keeps every earlier
write — in particular, failing at the rollup increment keeps the inserted
event row while the rollup table is untouched. -/
theorem C3_partial_write_semantics (st : Storage) (p : Payload) (now : Int) (fresh : String) :
    trackPageViewPartial st p now fresh 3 = trackPageView st p now fresh
  ∧ trackPageViewPartial st p now fresh 0 = st
  ∧ (trackPageViewPartial st p now fresh 1).pageViews = st.pageViews
  ∧ (trackPageViewPartial st p now fresh 1).dailyStats = st.dailyStats
  ∧ (trackPageViewPartial st p now fresh 2).pageViews =
      (trackPageView st p now fresh).pageViews
  ∧ (trackPageViewPartial st p now fresh 2).dailyStats = st.dailyStats := by
  refine ⟨rfl, rfl, ?_, ?_, ?_, ?_⟩
  · simp [trackPageViewPartial, ensureSession_pageViews]
  · simp [trackPageViewPartial, ensureSession_dailyStats]
  · simp [trackPageViewPartial, trackPageView, incrementDailyMetric]
  · simp [trackPageViewPartial, ensureSession_dailyStats]

/-! ## C4 -/

/-- C4 (counterexample): an unparsable `from` (or `from > to`) under
`period=custom` is NOT surfaced as a 400 — `parseRangeQuery` only rejects a
missing `from`, and `resolveDateRange` answers `undefined` for the other
failure cases, which the readers treat as "no date filter", so the request
is answered 200 against an unbounded range. -/
theorem C4_custom_range_counterexample :
    handleReportRange ⟨some "custom", some none, none⟩ 1000 = (200, some none) ∧
    handleReportRange ⟨some "custom", some (some 10), some (some 5)⟩ 1000 =
      (200, some none) := by
  refine ⟨by decide, by decide⟩

/-- C4 (amended): under `period=custom`, `to` defaults to the current time
when absent or unparsable; resolution yields no range whenever `from` is
missing/unparsable or the parsed `from` is later than the resolved `to`;
but only the missing-`from` case is answered 400 by the HTTP layer — the
other failure cases run as unbounded (all-time) queries. -/
theorem C4_custom_range_resolution (now f : Int) (fromP toP : Option (Option Int))
    (q : ReportQuery) :
    (asDate fromP = none →
      resolveDateRange now ⟨some .custom, fromP, toP⟩ = none)
  ∧ (asDate toP = none →
      resolveDateRange now ⟨some .custom, some (some f), toP⟩ =
        if f > now then none else some ⟨f, now⟩)
  ∧ (f > (asDate toP).getD now →
      resolveDateRange now ⟨some .custom, some (some f), toP⟩ = none)
  ∧ (q.period = some "custom" →
      ((handleReportRange q now).1 = 400 ↔ q.fromRaw = none)) := by
  have hp : parsePeriod "custom" = some StatsPeriod.custom := by decide
  refine ⟨?_, ?_, ?_, ?_⟩
  · intro h
    simp [resolveDateRange, h]
  · intro h
    have h' : (toP.bind fun a => a) = none := h
    simp [resolveDateRange, asDate, h']
  · intro h
    simp [resolveDateRange, asDate] at h ⊢
    simp [h]
  · intro h
    obtain ⟨p, fr, tr⟩ := q
    cases h
    cases fr with
    | none => simp [handleReportRange, parseRangeQuery, hp]
    | some v => simp [handleReportRange, parseRangeQuery, hp]

/-- C4 (witness): `C4_custom_range_resolution` at concrete inputs — an
unparsable `from` resolves to no range, and a missing `from` is a 400. -/
theorem C4_custom_range_resolution_witness :
    resolveDateRange 1000 ⟨some .custom, some none, none⟩ = none ∧
    (handleReportRange ⟨some "custom", none, none⟩ 1000).1 = 400 := by
  constructor
  · exact (C4_custom_range_resolution 1000 0 (some none) none
      ⟨some "custom", none, none⟩).1 rfl
  · exact ((C4_custom_range_resolution 1000 0 (some none) none
      ⟨some "custom", none, none⟩).2.2.2 rfl).2 rfl

/-! ## C7 -/

/-- C7: in `getReportOverview`, `clickThroughRate` is exactly 0 whenever
the `pageViews` total is 0 (no division-by-zero propagation) and otherwise
equals `clicks / pageViews` rounded to 4 decimal places; `goalsPerSession`
behaves the same over `goals / sessions`. -/
theorem C7_engagement_ratios (st : Storage) (input : StatsRangeInput) (clock : Nat → Int) :
    ((getReportOverview st input clock).totals.pageViews = 0 →
      (getReportOverview st input clock).engagement.clickThroughRate = 0)
  ∧ (0 < (getReportOverview st input clock).totals.pageViews →
      (getReportOverview st input clock).engagement.clickThroughRate =
        round4 (((getReportOverview st input clock).totals.clicks : ℚ) /
          ((getReportOverview st input clock).totals.pageViews : ℚ)))
  ∧ ((getReportOverview st input clock).totals.sessions = 0 →
      (getReportOverview st input clock).engagement.goalsPerSession = 0)
  ∧ (0 < (getReportOverview st input clock).totals.sessions →
      (getReportOverview st input clock).engagement.goalsPerSession =
        round4 (((getReportOverview st input clock).totals.goals : ℚ) /
          ((getReportOverview st input clock).totals.sessions : ℚ))) := by
  refine ⟨?_, ?_, ?_, ?_⟩ <;> intro h
  · simp [getReportOverview] at h ⊢
    simp [h]
  · simp [getReportOverview] at h ⊢
    intro h0
    exact absurd h0 (by omega)
  · simp [getReportOverview] at h ⊢
    simp [h]
  · simp [getReportOverview] at h ⊢
    intro h0
    exact absurd h0 (by omega)

/-- C7 (witness): `C7_engagement_ratios` at the claim's concrete inputs:
`clicks=10, pageViews=0` gives 0, and `clicks=5, pageViews=20` gives
exactly 0.25. -/
theorem C7_engagement_ratios_witness :
    (getReportOverview (stDayRollup 0 0 0 10 0) inputAll zeroClock).engagement.clickThroughRate
      = 0 ∧
    (getReportOverview (stDayRollup 1 20 0 5 0) inputAll zeroClock).engagement.clickThroughRate
      = 1 / 4 := by
  constructor
  · exact (C7_engagement_ratios (stDayRollup 0 0 0 10 0) inputAll zeroClock).1 (by decide)
  · have h := (C7_engagement_ratios (stDayRollup 1 20 0 5 0) inputAll zeroClock).2.1
      (by decide)
    have hc : (getReportOverview (stDayRollup 1 20 0 5 0) inputAll zeroClock).totals.clicks
        = 5 := by decide
    have hpv : (getReportOverview (stDayRollup 1 20 0 5 0) inputAll zeroClock).totals.pageViews
        = 20 := by decide
    rw [h, hc, hpv]
    norm_num [round4, jsRound]

/-! ## C8 -/

/-- C8: device classification in `getReportDevices`: an explicit non-empty
`deviceType` determines the class (lowercased); otherwise no or empty user
agent gives "unknown"; otherwise ipad/tablet substrings (case-insensitive)
give "tablet"; otherwise mobile/android/iphone give "mobile"; everything
else is "desktop". -/
theorem C8_device_classification (dt ua : Option String) :
    (∀ s, dt = some s → s ≠ "" → classifyDevice dt ua = s.toLower)
  ∧ ((dt = none ∨ dt = some "") → (ua = none ∨ ua = some "") →
      classifyDevice dt ua = "unknown")
  ∧ (∀ u, (dt = none ∨ dt = some "") → ua = some u → u ≠ "" →
      (icontains u "ipad" || icontains u "tablet") = true →
      classifyDevice dt ua = "tablet")
  ∧ (∀ u, (dt = none ∨ dt = some "") → ua = some u → u ≠ "" →
      (icontains u "ipad" || icontains u "tablet") = false →
      (icontains u "mobile" || icontains u "android" || icontains u "iphone") = true →
      classifyDevice dt ua = "mobile")
  ∧ (∀ u, (dt = none ∨ dt = some "") → ua = some u → u ≠ "" →
      (icontains u "ipad" || icontains u "tablet") = false →
      (icontains u "mobile" || icontains u "android" || icontains u "iphone") = false →
      classifyDevice dt ua = "desktop") := by
  refine ⟨?_, ?_, ?_, ?_, ?_⟩
  · rintro s rfl hs
    simp [classifyDevice, hs]
  · rintro (rfl | rfl) (rfl | rfl) <;>
      simp [classifyDevice, classifyDevice.classifyByUserAgent]
  · rintro u (rfl | rfl) rfl hu ht <;>
      simp [classifyDevice, classifyDevice.classifyByUserAgent, hu, ht]
  · rintro u (rfl | rfl) rfl hu ht hm <;>
      simp [classifyDevice, classifyDevice.classifyByUserAgent, hu, ht, hm]
  · rintro u (rfl | rfl) rfl hu ht hm <;>
      simp [classifyDevice, classifyDevice.classifyByUserAgent, hu, ht, hm]

/-- C8 (witness): `C8_device_classification` at the spec's concrete cases:
no `deviceType` and an iPhone user agent classifies as "mobile"; an empty
user agent and no `deviceType` classifies as "unknown". -/
theorem C8_device_classification_witness :
    classifyDevice none (some "Mozilla/5.0 (iPhone; CPU iPhone OS)") = "mobile" ∧
    classifyDevice none (some "") = "unknown" := by
  constructor
  · exact (C8_device_classification none (some "Mozilla/5.0 (iPhone; CPU iPhone OS)")).2.2.2.1
      "Mozilla/5.0 (iPhone; CPU iPhone OS)" (Or.inl rfl) rfl (by decide) (by decide) (by decide)
  · exact (C8_device_classification none (some "")).2.1 (Or.inl rfl) (Or.inr rfl)

/-! ## C6 -/

/-- C6: when a resolved interval indexes the day-keyed rollup table, both
bounds are floored to UTC day starts (the `lte` bound floored, never
ceilinged), and consequently for an interval whose `lte` falls at any
time-of-day on day D, the rollup row dated D passes the daily filter — so
it is included in the range sums and in `getReportTimeseries` reads. -/
theorem C6_daily_bounds_floored (g l now : Int) (st : Storage) (r : DailyStatsRow) :
    toDailyWhere (some ⟨g, l⟩) = some ⟨toUtcDateOnly g, toUtcDateOnly l⟩
  ∧ (g ≤ l → inDailyRange (toDailyWhere (some ⟨g, l⟩)) (toUtcDateOnly l) = true)
  ∧ (g ≤ l → r.date = toUtcDateOnly l → r ∈ st.dailyStats →
      r ∈ st.dailyStats.filter fun x =>
        inDailyRange (toDailyWhere (resolveDateRange now
          ⟨some .custom, some (some g), some (some l)⟩)) x.date)
  ∧ (g ≤ l → r.date = toUtcDateOnly l → r ∈ st.dailyStats →
      r ∈ getReportTimeseriesRows st now ⟨some .custom, some (some g), some (some l)⟩) := by
  have hmono : g ≤ l → toUtcDateOnly g ≤ toUtcDateOnly l := by
    intro h
    simp only [toUtcDateOnly, msPerDay]
    omega
  have hres : g ≤ l →
      resolveDateRange now ⟨some .custom, some (some g), some (some l)⟩ =
        some ⟨g, l⟩ := by
    intro h
    simp [resolveDateRange, asDate]
    omega
  have hin : g ≤ l → inDailyRange (toDailyWhere (some ⟨g, l⟩)) (toUtcDateOnly l) = true := by
    intro h
    simp [toDailyWhere, inDailyRange]
    exact hmono h
  refine ⟨rfl, hin, ?_, ?_⟩
  · intro h hd hmem
    rw [hres h]
    rw [List.mem_filter]
    exact ⟨hmem, by rw [hd]; exact hin h⟩
  · intro h hd hmem
    unfold getReportTimeseriesRows
    rw [List.mem_mergeSort, List.mem_filter, hres h]
    exact ⟨hmem, by rw [hd]; exact hin h⟩

/-- C6 (witness): `C6_daily_bounds_floored` at a concrete interval
`[100ms, 50000ms]` inside day 0 and a storage holding the day-0 rollup
row: the row passes the daily filter and appears in the timeseries rows. -/
theorem C6_daily_bounds_floored_witness :
    (⟨0, 1, 1, 1, 1, 1⟩ : DailyStatsRow) ∈
      getReportTimeseriesRows (stDayRollup 1 1 1 1 1) 60000
        ⟨some .custom, some (some 100), some (some 50000)⟩ :=
  (C6_daily_bounds_floored 100 50000 60000 (stDayRollup 1 1 1 1 1)
    ⟨0, 1, 1, 1, 1, 1⟩).2.2.2 (by decide) (by decide) (by decide)

/-! ## C10 -/

/-- C10 (counterexample): a `trackClick` whose payload references the
existing session `s1` but omits `duration` and all device/location fields
resets `duration` to 0 and overwrites `lastPingTime`, yet the stored
`userAgent` keeps its old value instead of being set to absent as the
claim requires. -/
theorem C10_omitted_fields_counterexample :
    ((trackClick stWithOldSession omittingPayload 1000 "fresh").sessions.map
      fun s => (s.userAgent, s.duration, s.lastPingTime)) =
      [(some "OldAgent", 0, 1000)] := by
  decide

/-- C10 (amended): every track call whose payload references an existing
session id routes the session through the `ensureSession` update, which
always overwrites `lastPingTime` and `duration` (0 when the payload omits
`duration`) and never touches `id` or `startTime`, but updates each
optional device/location string field only when the payload carries it —
an omitted string field keeps its stored value (Prisma skips `undefined`
update fields).  `trackPing` afterwards overwrites `lastPingTime` with the
ping's timestamp and `duration` again. -/
theorem C10_session_update_semantics (st : Storage) (p : Payload) (now : Int)
    (fresh sid : String) (s : SessionRow) :
    ((sessionUpdateData p now s).id = s.id
  ∧ (sessionUpdateData p now s).startTime = s.startTime
  ∧ (sessionUpdateData p now s).lastPingTime =
      (p.lastPingTime <|> p.timestamp).getD (resolvedStartTime p now)
  ∧ (sessionUpdateData p now s).duration = p.duration.getD 0
  ∧ (p.duration = none → (sessionUpdateData p now s).duration = 0)
  ∧ (p.userAgent = none → (sessionUpdateData p now s).userAgent = s.userAgent)
  ∧ (p.deviceType = none → (sessionUpdateData p now s).deviceType = s.deviceType)
  ∧ (p.browser = none → (sessionUpdateData p now s).browser = s.browser)
  ∧ (p.os = none → (sessionUpdateData p now s).os = s.os)
  ∧ (p.country = none → (sessionUpdateData p now s).country = s.country)
  ∧ (p.city = none → (sessionUpdateData p now s).city = s.city)
  ∧ (p.ipAddress = none → p.ip = none →
      (sessionUpdateData p now s).ipAddress = s.ipAddress))
  ∧ (resolveSessionId p fresh = sid → st.hasSession sid = true →
      (trackSession st p now fresh).sessions =
        st.sessions.map (fun x => if x.id = sid then sessionUpdateData p now x else x)
      ∧ (trackPageView st p now fresh).sessions =
        st.sessions.map (fun x => if x.id = sid then sessionUpdateData p now x else x)
      ∧ (trackClick st p now fresh).sessions =
        st.sessions.map (fun x => if x.id = sid then sessionUpdateData p now x else x)
      ∧ (trackPing st p now fresh).sessions =
        st.sessions.map (fun x => if x.id = sid then
          { sessionUpdateData p now x with
              lastPingTime := p.timestamp.getD now
              duration := p.duration.getD 0 }
          else x))
  ∧ ((p.sessionId <|> p.session_id) = some sid → st.hasSession sid = true →
      (trackGoal st p now).sessions =
        st.sessions.map (fun x => if x.id = sid then sessionUpdateData p now x else x)) := by
  refine ⟨?_, ?_, ?_⟩
  · refine ⟨rfl, rfl, rfl, rfl, ?_, ?_, ?_, ?_, ?_, ?_, ?_, ?_⟩
    · intro h; simp [sessionUpdateData, h]
    · intro h; simp [sessionUpdateData, h]
    · intro h; simp [sessionUpdateData, h]
    · intro h; simp [sessionUpdateData, h]
    · intro h; simp [sessionUpdateData, h]
    · intro h; simp [sessionUpdateData, h]
    · intro h; simp [sessionUpdateData, h]
    · intro h1 h2; simp [sessionUpdateData, h1, h2]
  · intro hid hhas
    subst hid
    refine ⟨?_, ?_, ?_, ?_⟩
    · simp [trackSession, ensureSession, hhas]
    · simp [trackPageView, ensureSession, incrementDailyMetric, hhas]
    · simp [trackClick, ensureSession, incrementDailyMetric, hhas]
    · simp only [trackPing, ensureSession, hhas, if_true, incrementDailyMetric]
      rw [List.map_map]
      refine List.map_congr_left ?_
      intro x _
      by_cases hx : x.id = resolveSessionId p fresh
      · simp [hx, Function.comp, sessionUpdateData]
      · simp [hx, Function.comp]
  · intro hid hhas
    simp [trackGoal, hid, ensureSession, incrementDailyMetric, hhas]

/-- C10 (witness): `C10_session_update_semantics` applied to the concrete
storage holding `oldSession` and a payload omitting the optional fields:
the click call maps the stored session through the update record, and the
update keeps the omitted `userAgent`. -/
theorem C10_session_update_semantics_witness :
    (trackClick stWithOldSession omittingPayload 1000 "fresh").sessions =
      stWithOldSession.sessions.map
        (fun x => if x.id = "s1" then sessionUpdateData omittingPayload 1000 x else x) ∧
    (sessionUpdateData omittingPayload 1000 oldSession).userAgent = oldSession.userAgent := by
  constructor
  · exact ((C10_session_update_semantics stWithOldSession omittingPayload 1000 "fresh" "s1"
      oldSession).2.1 (by decide) (by decide)).2.2.1
  · exact (C10_session_update_semantics stWithOldSession omittingPayload 1000 "fresh" "s1"
      oldSession).1.2.2.2.2.2.1 rfl

/-! ## Rollup bookkeeping lemmas -/

theorem newDailyRow_metric (d : Int) (m m' : DailyMetricField) :
    (newDailyRow d m).metric m' = if m' = m then 1 else 0 := by
  cases m <;> cases m' <;> simp [newDailyRow, DailyStatsRow.metric]

theorem newDailyRow_date (d : Int) (m : DailyMetricField) :
    (newDailyRow d m).date = d := rfl

theorem inc_metric (r : DailyStatsRow) (m m' : DailyMetricField) :
    (r.inc m).metric m' = r.metric m' + (if m' = m then 1 else 0) := by
  cases m <;> cases m' <;> simp [DailyStatsRow.inc, DailyStatsRow.metric]

theorem inc_date (r : DailyStatsRow) (m : DailyMetricField) :
    (r.inc m).date = r.date := by
  cases m <;> rfl

theorem upsertDaily_rollup (m m' : DailyMetricField) (date d : Int)
    (rows : List DailyStatsRow) :
    ((List.filter (fun r => r.date = d) (upsertDaily m date rows)).map
        (fun r => r.metric m')).sum
      = ((List.filter (fun r => r.date = d) rows).map (fun r => r.metric m')).sum
        + (if m' = m ∧ d = date then 1 else 0) := by
  induction rows with
  | nil =>
    by_cases hd : d = date
    · subst hd
      simp [upsertDaily, newDailyRow_date, newDailyRow_metric]
    · have hd' : ¬ date = d := fun h => hd h.symm
      simp [upsertDaily, newDailyRow_date, hd, hd']
  | cons r rs ih =>
    by_cases hr : r.date = date
    · simp only [upsertDaily, hr, if_true]
      by_cases hd : d = date
      · subst hd
        simp [List.filter_cons, inc_date, hr, inc_metric]
        by_cases hm : m' = m <;> simp [hm] <;> omega
      · have hrd : ¬ r.date = d := by rw [hr]; exact fun h => hd h.symm
        simp [List.filter_cons, inc_date, hrd, hd]
    · simp only [upsertDaily, hr, if_false]
      by_cases hd : r.date = d
      · simp [List.filter_cons, hd, ih]
        omega
      · simp [List.filter_cons, hd, ih]

theorem rollupAt_increment (st : Storage) (m m' : DailyMetricField) (at' d : Int) :
    rollupAt (incrementDailyMetric st m at') m' d =
      rollupAt st m' d + (if m' = m ∧ d = toUtcDateOnly at' then 1 else 0) := by
  exact upsertDaily_rollup m m' (toUtcDateOnly at') d st.dailyStats

/-! ## Recorder step shape lemmas -/

theorem trackSession_existing (st : Storage) (p : Payload) (now : Int) (fresh : String)
    (h : st.hasSession (resolveSessionId p fresh) = true) :
    trackSession st p now fresh =
      { st with sessions := st.sessions.map fun x =>
          if x.id = resolveSessionId p fresh then sessionUpdateData p now x else x } := by
  simp [trackSession, ensureSession, h]

theorem trackSession_new (st : Storage) (p : Payload) (now : Int) (fresh : String)
    (h : st.hasSession (resolveSessionId p fresh) = false) :
    trackSession st p now fresh =
      incrementDailyMetric
        { st with sessions := st.sessions ++ [sessionCreateData (resolveSessionId p fresh) p now] }
        .sessions (resolvedStartTime p now) := by
  simp [trackSession, ensureSession, h]

theorem trackPageView_shape (st : Storage) (p : Payload) (now : Int) (fresh : String) :
    (trackPageView st p now fresh).pageViews =
      st.pageViews ++
        [{ sessionId := resolveSessionId p fresh
           path := (p.path <|> p.pagePath).getD "/"
           timestamp := p.timestamp.getD now
           metadata := p }]
  ∧ (trackPageView st p now fresh).pings = st.pings
  ∧ (trackPageView st p now fresh).clicks = st.clicks
  ∧ (trackPageView st p now fresh).goals = st.goals
  ∧ (trackPageView st p now fresh).dailyStats =
      upsertDaily .pageViews (toUtcDateOnly (p.timestamp.getD now)) st.dailyStats := by
  unfold trackPageView incrementDailyMetric
  refine ⟨?_, ?_, ?_, ?_, ?_⟩ <;>
    simp [ensureSession_pageViews, ensureSession_pings, ensureSession_clicks,
      ensureSession_goals, ensureSession_dailyStats]

theorem trackPing_shape (st : Storage) (p : Payload) (now : Int) (fresh : String) :
    (trackPing st p now fresh).pings =
      st.pings ++
        [{ sessionId := resolveSessionId p fresh
           duration := p.duration.getD 0
           pagePath := p.pagePath <|> p.path
           timestamp := p.timestamp.getD now
           metadata := p }]
  ∧ (trackPing st p now fresh).pageViews = st.pageViews
  ∧ (trackPing st p now fresh).clicks = st.clicks
  ∧ (trackPing st p now fresh).goals = st.goals
  ∧ (trackPing st p now fresh).dailyStats =
      upsertDaily .pings (toUtcDateOnly (p.timestamp.getD now)) st.dailyStats := by
  unfold trackPing incrementDailyMetric
  refine ⟨?_, ?_, ?_, ?_, ?_⟩ <;>
    simp [ensureSession_pageViews, ensureSession_pings, ensureSession_clicks,
      ensureSession_goals, ensureSession_dailyStats]

theorem trackClick_shape (st : Storage) (p : Payload) (now : Int) (fresh : String) :
    (trackClick st p now fresh).clicks =
      st.clicks ++
        [{ sessionId := resolveSessionId p fresh
           elementTag := p.elementTag
           elementId := p.elementId
           elementClassAttr := p.elementClassAttr
           elementText := p.elementText
           x := p.x.getD 0
           y := p.y.getD 0
           pagePath := (p.pagePath <|> p.path).getD "/"
           timestamp := p.timestamp.getD now
           metadata := p }]
  ∧ (trackClick st p now fresh).pageViews = st.pageViews
  ∧ (trackClick st p now fresh).pings = st.pings
  ∧ (trackClick st p now fresh).goals = st.goals
  ∧ (trackClick st p now fresh).dailyStats =
      upsertDaily .clicks (toUtcDateOnly (p.timestamp.getD now)) st.dailyStats := by
  unfold trackClick incrementDailyMetric
  refine ⟨?_, ?_, ?_, ?_, ?_⟩ <;>
    simp [ensureSession_pageViews, ensureSession_pings, ensureSession_clicks,
      ensureSession_goals, ensureSession_dailyStats]

theorem trackGoal_shape (st : Storage) (p : Payload) (now : Int) :
    (trackGoal st p now).goals =
      st.goals ++
        [{ sessionId := p.sessionId <|> p.session_id
           name := (p.name <|> p.goalName).getD "goal"
           value := p.value
           path := p.path <|> p.pagePath
           timestamp := p.timestamp.getD now
           metadata := p }]
  ∧ (trackGoal st p now).pageViews = st.pageViews
  ∧ (trackGoal st p now).pings = st.pings
  ∧ (trackGoal st p now).clicks = st.clicks
  ∧ (trackGoal st p now).dailyStats =
      upsertDaily .goals (toUtcDateOnly (p.timestamp.getD now)) st.dailyStats := by
  unfold trackGoal incrementDailyMetric
  refine ⟨?_, ?_, ?_, ?_, ?_⟩ <;>
    cases hm : p.sessionId <|> p.session_id <;>
      simp [hm, ensureSession_pageViews, ensureSession_pings, ensureSession_clicks,
        ensureSession_goals, ensureSession_dailyStats]

theorem trackSession_events (st : Storage) (p : Payload) (now : Int) (fresh : String) :
    (trackSession st p now fresh).pageViews = st.pageViews
  ∧ (trackSession st p now fresh).pings = st.pings
  ∧ (trackSession st p now fresh).clicks = st.clicks
  ∧ (trackSession st p now fresh).goals = st.goals := by
  cases h : st.hasSession (resolveSessionId p fresh)
  · rw [trackSession_new st p now fresh h]
    exact ⟨rfl, rfl, rfl, rfl⟩
  · rw [trackSession_existing st p now fresh h]
    exact ⟨rfl, rfl, rfl, rfl⟩

theorem trackSession_dailyStats (st : Storage) (p : Payload) (now : Int) (fresh : String) :
    (trackSession st p now fresh).dailyStats =
      if st.hasSession (resolveSessionId p fresh) = false then
        upsertDaily .sessions (toUtcDateOnly (resolvedStartTime p now)) st.dailyStats
      else st.dailyStats := by
  cases h : st.hasSession (resolveSessionId p fresh)
  · rw [trackSession_new st p now fresh h]
    rfl
  · rw [trackSession_existing st p now fresh h]
    rfl

/-! ## Session-list bookkeeping lemmas -/

theorem any_map_id_preserving (l : List SessionRow) (g : SessionRow → SessionRow)
    (hid : ∀ s, (g s).id = s.id) (q : String) :
    ((l.map g).any fun s => s.id = q) = (l.any fun s => s.id = q) := by
  induction l with
  | nil => rfl
  | cons x xs ih =>
    simp only [List.map_cons, List.any_cons, hid, ih]

theorem find_map_id_preserving (l : List SessionRow) (g : SessionRow → SessionRow)
    (hid : ∀ s, (g s).id = s.id) (q : String) :
    ((l.map g).find? fun s => s.id = q) = (l.find? fun s => s.id = q).map g := by
  induction l with
  | nil => rfl
  | cons x xs ih =>
    by_cases hq : x.id = q
    · have h1 : ((g x).id = q) := by rw [hid]; exact hq
      rw [List.map_cons, List.find?_cons_of_pos _ (by simpa using h1),
        List.find?_cons_of_pos _ (by simpa using hq)]
      rfl
    · have h1 : ¬ ((g x).id = q) := by rw [hid]; exact hq
      rw [List.map_cons, List.find?_cons_of_neg _ (by simpa using h1),
        List.find?_cons_of_neg _ (by simpa using hq), ih]

theorem sessionUpdateData_id (p : Payload) (now : Int) (s : SessionRow) :
    (sessionUpdateData p now s).id = s.id := rfl

theorem sessionUpdateData_startTime (p : Payload) (now : Int) (s : SessionRow) :
    (sessionUpdateData p now s).startTime = s.startTime := rfl

theorem trackSession_existing_preserves (st : Storage) (p : Payload) (now : Int)
    (fresh sid : String)
    (h : st.hasSession (resolveSessionId p fresh) = true) :
    (trackSession st p now fresh).hasSession sid = st.hasSession sid
  ∧ sessionStartTime (trackSession st p now fresh) sid = sessionStartTime st sid
  ∧ (trackSession st p now fresh).dailyStats = st.dailyStats := by
  rw [trackSession_existing st p now fresh h]
  set g := fun x => if x.id = resolveSessionId p fresh then sessionUpdateData p now x else x
    with hg
  have hid : ∀ s, (g s).id = s.id := by
    intro s
    rw [hg]
    by_cases hx : s.id = resolveSessionId p fresh <;> simp [hx, sessionUpdateData_id]
  have hstart : ∀ s, (g s).startTime = s.startTime := by
    intro s
    rw [hg]
    by_cases hx : s.id = resolveSessionId p fresh <;>
      simp [hx, sessionUpdateData_startTime]
  refine ⟨?_, ?_, rfl⟩
  · exact any_map_id_preserving st.sessions g hid sid
  · show (((st.sessions.map g).find? fun s => s.id = sid).map fun s => s.startTime) = _
    rw [find_map_id_preserving st.sessions g hid sid, sessionStartTime]
    cases hf : st.sessions.find? fun s => s.id = sid
    · rfl
    · simp [hstart]

/-! ## C2 -/

theorem run_session_calls_preserve (sid : String) (cs : List Call)
    (hcs : ∀ x ∈ cs, x.kind = .session ∧ resolveSessionId x.payload x.freshId = sid) :
    ∀ st : Storage, st.hasSession sid = true →
      (∀ d, rollupAt (run st cs) .sessions d = rollupAt st .sessions d)
      ∧ sessionStartTime (run st cs) sid = sessionStartTime st sid
      ∧ (run st cs).hasSession sid = true := by
  induction cs with
  | nil => exact fun st h => ⟨fun d => rfl, rfl, h⟩
  | cons c cs ih =>
    intro st hst
    obtain ⟨hk, hid⟩ := hcs c (List.mem_cons_self c cs)
    have hstep : step st c = trackSession st c.payload c.now c.freshId := by
      rw [step, hk]
    have hhas : st.hasSession (resolveSessionId c.payload c.freshId) = true := by
      rw [hid]; exact hst
    have hpres := trackSession_existing_preserves st c.payload c.now c.freshId sid hhas
    have hcs' : ∀ x ∈ cs, x.kind = .session ∧ resolveSessionId x.payload x.freshId = sid :=
      fun x hx => hcs x (List.mem_cons_of_mem c hx)
    have hst' : (step st c).hasSession sid = true := by
      rw [hstep, hpres.1]; exact hst
    obtain ⟨ha, hb, hc⟩ := ih hcs' (step st c) hst'
    refine ⟨?_, ?_, hc⟩
    · intro d
      rw [show run st (c :: cs) = run (step st c) cs from rfl, ha d, hstep,
        rollupAt, hpres.2.2]
      rfl
    · rw [show run st (c :: cs) = run (step st c) cs from rfl, hb, hstep, hpres.2.1]

/-- C2: for any sequence of `trackSession` calls carrying the same session
id (starting from a state where that session does not exist), only the
first call increments the `sessions` rollup — at the UTC day of the
session's resolved `startTime`, by exactly one, touching no other day —
and every subsequent call leaves every `sessions` rollup counter unchanged
and never changes the session's stored `startTime` (or its id: the session
stays present under the same id with its original `startTime`). -/
theorem C2_first_call_only_increments (st0 : Storage) (sid : String) (c : Call)
    (cs : List Call)
    (hk : c.kind = .session) (hid : resolveSessionId c.payload c.freshId = sid)
    (hcs : ∀ x ∈ cs, x.kind = .session ∧ resolveSessionId x.payload x.freshId = sid)
    (habs : st0.hasSession sid = false) :
    rollupAt (step st0 c) .sessions (toUtcDateOnly (resolvedStartTime c.payload c.now)) =
      rollupAt st0 .sessions (toUtcDateOnly (resolvedStartTime c.payload c.now)) + 1
  ∧ (∀ d, d ≠ toUtcDateOnly (resolvedStartTime c.payload c.now) →
      rollupAt (step st0 c) .sessions d = rollupAt st0 .sessions d)
  ∧ (∀ d, rollupAt (run (step st0 c) cs) .sessions d = rollupAt (step st0 c) .sessions d)
  ∧ sessionStartTime (run (step st0 c) cs) sid = some (resolvedStartTime c.payload c.now) := by
  have hstep : step st0 c = trackSession st0 c.payload c.now c.freshId := by
    rw [step, hk]
  have habs' : st0.hasSession (resolveSessionId c.payload c.freshId) = false := by
    rw [hid]; exact habs
  have hnew := trackSession_new st0 c.payload c.now c.freshId habs'
  have hfind : (st0.sessions.find? fun s => s.id = sid) = none := by
    rw [List.find?_eq_none]
    intro x hx
    by_contra hcon
    have : st0.sessions.any (fun s => s.id = sid) = true :=
      List.any_eq_true.mpr ⟨x, hx, by simpa using hcon⟩
    rw [Storage.hasSession] at habs
    rw [habs] at this
    exact Bool.false_ne_true this
  have hstart1 : sessionStartTime (step st0 c) sid =
      some (resolvedStartTime c.payload c.now) := by
    rw [hstep, hnew]
    show ((st0.sessions ++ [sessionCreateData (resolveSessionId c.payload c.freshId)
      c.payload c.now]).find? fun s => s.id = sid).map (fun s => s.startTime) = _
    rw [List.find?_append, hfind]
    simp [List.find?_cons, sessionCreateData, hid, resolvedStartTime]
  have hhas1 : (step st0 c).hasSession sid = true := by
    rw [hstep, hnew]
    show (st0.sessions ++ [sessionCreateData (resolveSessionId c.payload c.freshId)
      c.payload c.now]).any (fun s => s.id = sid) = true
    rw [List.any_append]
    simp [sessionCreateData, hid]
  have hrun := run_session_calls_preserve sid cs hcs (step st0 c) hhas1
  refine ⟨?_, ?_, hrun.1, by rw [hrun.2.1, hstart1]⟩
  · rw [hstep, hnew, rollupAt]
    show ((List.filter _ (upsertDaily .sessions (toUtcDateOnly
      (resolvedStartTime c.payload c.now)) st0.dailyStats)).map _).sum = _
    rw [upsertDaily_rollup]
    simp [rollupAt]
  · intro d hd
    rw [hstep, hnew, rollupAt]
    show ((List.filter _ (upsertDaily .sessions (toUtcDateOnly
      (resolvedStartTime c.payload c.now)) st0.dailyStats)).map _).sum = _
    rw [upsertDaily_rollup]
    simp [rollupAt, hd]

/-- C2 (witness): `C2_first_call_only_increments` on the concrete run
`[sessionCallA, sessionCallB]` for session `s1`: the second call changes no
`sessions` rollup counter and the stored `startTime` stays the first
call's resolved 1000. -/
theorem C2_first_call_only_increments_witness :
    rollupAt (run (step Storage.empty sessionCallA) [sessionCallB]) .sessions
        (toUtcDateOnly 1000) =
      rollupAt (step Storage.empty sessionCallA) .sessions (toUtcDateOnly 1000)
  ∧ sessionStartTime (run (step Storage.empty sessionCallA) [sessionCallB]) "s1" =
      some 1000 := by
  have h := C2_first_call_only_increments Storage.empty "s1" sessionCallA [sessionCallB]
    rfl (by decide)
    (by
      intro x hx
      rw [List.mem_singleton] at hx
      subst hx
      exact ⟨rfl, by decide⟩)
    (by decide)
  exact ⟨h.2.2.1 (toUtcDateOnly 1000), h.2.2.2⟩

/-! ## C1 supporting lemmas -/

theorem length_filter_append_single {α : Type} (l : List α) (p : α → Bool) (e : α) :
    (List.filter p (l ++ [e])).length = (List.filter p l).length + (if p e then 1 else 0) := by
  rw [List.filter_append, List.length_append]
  by_cases hp : p e <;> simp [hp]

theorem rollupAt_dailyStats_congr (st st' : Storage) (m : DailyMetricField) (d : Int)
    (h : st'.dailyStats = st.dailyStats) :
    rollupAt st' m d = rollupAt st m d := by
  rw [rollupAt, rollupAt, h]

theorem run_sessions_starts (cs : List Call) : ∀ (st : Storage) (d : Int),
    rollupAt (run st cs) .sessions d =
      rollupAt st .sessions d +
        ((trackSessionStarts st cs).filter fun t => toUtcDateOnly t = d).length := by
  induction cs with
  | nil => intro st d; simp [run, trackSessionStarts]
  | cons c cs ih =>
    intro st d
    have hrun : run st (c :: cs) = run (step st c) cs := rfl
    have hstarts : trackSessionStarts st (c :: cs) =
        (if c.kind = .session ∧
            st.hasSession (resolveSessionId c.payload c.freshId) = false
          then [resolvedStartTime c.payload c.now] else []) ++
        trackSessionStarts (step st c) cs := rfl
    rw [hrun, ih (step st c) d, hstarts, List.filter_append, List.length_append]
    have hgoal : rollupAt (step st c) .sessions d =
        rollupAt st .sessions d +
          ((List.filter (fun t => toUtcDateOnly t = d)
            (if c.kind = .session ∧
                st.hasSession (resolveSessionId c.payload c.freshId) = false
              then [resolvedStartTime c.payload c.now] else []))).length := by
      cases hk : c.kind
      case session =>
        have hstep : step st c = trackSession st c.payload c.now c.freshId := by
          rw [step, hk]
        cases hhas : st.hasSession (resolveSessionId c.payload c.freshId)
        · rw [hstep, trackSession_new st c.payload c.now c.freshId hhas,
            rollupAt, rollupAt]
          show ((List.filter _ (upsertDaily .sessions (toUtcDateOnly
            (resolvedStartTime c.payload c.now)) st.dailyStats)).map _).sum = _
          rw [upsertDaily_rollup]
          simp only [hk, hhas, true_and, if_true, and_true]
          by_cases hd : d = toUtcDateOnly (resolvedStartTime c.payload c.now)
          · simp [hd]
          · simp [hd]
            exact fun h => hd h.symm
        · have := trackSession_existing_preserves st c.payload c.now c.freshId
            (resolveSessionId c.payload c.freshId) hhas
          rw [hstep, rollupAt_dailyStats_congr st _ .sessions d this.2.2]
          simp [hk, hhas]
      case view =>
        have hstep : step st c = trackPageView st c.payload c.now c.freshId := by
          rw [step, hk]
        have hs := (trackPageView_shape st c.payload c.now c.freshId).2.2.2.2
        rw [hstep, rollupAt, hs, upsertDaily_rollup]
        simp [hk, rollupAt]
      case ping =>
        have hstep : step st c = trackPing st c.payload c.now c.freshId := by
          rw [step, hk]
        have hs := (trackPing_shape st c.payload c.now c.freshId).2.2.2.2
        rw [hstep, rollupAt, hs, upsertDaily_rollup]
        simp [hk, rollupAt]
      case click =>
        have hstep : step st c = trackClick st c.payload c.now c.freshId := by
          rw [step, hk]
        have hs := (trackClick_shape st c.payload c.now c.freshId).2.2.2.2
        rw [hstep, rollupAt, hs, upsertDaily_rollup]
        simp [hk, rollupAt]
      case goal =>
        have hstep : step st c = trackGoal st c.payload c.now := by
          rw [step, hk]
        have hs := (trackGoal_shape st c.payload c.now).2.2.2.2
        rw [hstep, rollupAt, hs, upsertDaily_rollup]
        simp [hk, rollupAt]
    omega

theorem step_event_balance (st : Storage) (c : Call) (d : Int) :
    (rollupAt (step st c) .pageViews d +
        (st.pageViews.filter fun e => toUtcDateOnly e.timestamp = d).length =
      rollupAt st .pageViews d +
        ((step st c).pageViews.filter fun e => toUtcDateOnly e.timestamp = d).length)
  ∧ (rollupAt (step st c) .pings d +
        (st.pings.filter fun e => toUtcDateOnly e.timestamp = d).length =
      rollupAt st .pings d +
        ((step st c).pings.filter fun e => toUtcDateOnly e.timestamp = d).length)
  ∧ (rollupAt (step st c) .clicks d +
        (st.clicks.filter fun e => toUtcDateOnly e.timestamp = d).length =
      rollupAt st .clicks d +
        ((step st c).clicks.filter fun e => toUtcDateOnly e.timestamp = d).length)
  ∧ (rollupAt (step st c) .goals d +
        (st.goals.filter fun e => toUtcDateOnly e.timestamp = d).length =
      rollupAt st .goals d +
        ((step st c).goals.filter fun e => toUtcDateOnly e.timestamp = d).length) := by
  cases hk : c.kind
  case session =>
    have hstep : step st c = trackSession st c.payload c.now c.freshId := by
      rw [step, hk]
    have hev := trackSession_events st c.payload c.now c.freshId
    have hds := trackSession_dailyStats st c.payload c.now c.freshId
    rw [hstep]
    cases hhas : st.hasSession (resolveSessionId c.payload c.freshId) <;>
      rw [hhas] at hds <;>
      refine ⟨?_, ?_, ?_, ?_⟩ <;>
        simp only [rollupAt, hds, hev.1, hev.2.1, hev.2.2.1, hev.2.2.2,
          upsertDaily_rollup, if_true, if_false] <;>
        simp
  case view =>
    have hstep : step st c = trackPageView st c.payload c.now c.freshId := by
      rw [step, hk]
    have hs := trackPageView_shape st c.payload c.now c.freshId
    rw [hstep]
    refine ⟨?_, ?_, ?_, ?_⟩ <;>
      simp only [rollupAt, hs.1, hs.2.1, hs.2.2.1, hs.2.2.2.1, hs.2.2.2.2,
        upsertDaily_rollup, length_filter_append_single]
    · by_cases hd : d = toUtcDateOnly (c.payload.timestamp.getD c.now)
      · simp [hd]
        omega
      · simp [hd]
        intro h
        exact absurd h.symm hd
    · simp
    · simp
    · simp
  case ping =>
    have hstep : step st c = trackPing st c.payload c.now c.freshId := by
      rw [step, hk]
    have hs := trackPing_shape st c.payload c.now c.freshId
    rw [hstep]
    refine ⟨?_, ?_, ?_, ?_⟩ <;>
      simp only [rollupAt, hs.1, hs.2.1, hs.2.2.1, hs.2.2.2.1, hs.2.2.2.2,
        upsertDaily_rollup, length_filter_append_single]
    · simp
    · by_cases hd : d = toUtcDateOnly (c.payload.timestamp.getD c.now)
      · simp [hd]
        omega
      · simp [hd]
        intro h
        exact absurd h.symm hd
    · simp
    · simp
  case click =>
    have hstep : step st c = trackClick st c.payload c.now c.freshId := by
      rw [step, hk]
    have hs := trackClick_shape st c.payload c.now c.freshId
    rw [hstep]
    refine ⟨?_, ?_, ?_, ?_⟩ <;>
      simp only [rollupAt, hs.1, hs.2.1, hs.2.2.1, hs.2.2.2.1, hs.2.2.2.2,
        upsertDaily_rollup, length_filter_append_single]
    · simp
    · simp
    · by_cases hd : d = toUtcDateOnly (c.payload.timestamp.getD c.now)
      · simp [hd]
        omega
      · simp [hd]
        intro h
        exact absurd h.symm hd
    · simp
  case goal =>
    have hstep : step st c = trackGoal st c.payload c.now := by
      rw [step, hk]
    have hs := trackGoal_shape st c.payload c.now
    rw [hstep]
    refine ⟨?_, ?_, ?_, ?_⟩ <;>
      simp only [rollupAt, hs.1, hs.2.1, hs.2.2.1, hs.2.2.2.1, hs.2.2.2.2,
        upsertDaily_rollup, length_filter_append_single]
    · simp
    · simp
    · simp
    · by_cases hd : d = toUtcDateOnly (c.payload.timestamp.getD c.now)
      · simp [hd]
        omega
      · simp [hd]
        intro h
        exact absurd h.symm hd

theorem run_event_rollups (cs : List Call) : ∀ st : Storage,
    (∀ d, rollupAt st .pageViews d =
        (st.pageViews.filter fun e => toUtcDateOnly e.timestamp = d).length) →
    (∀ d, rollupAt st .pings d =
        (st.pings.filter fun e => toUtcDateOnly e.timestamp = d).length) →
    (∀ d, rollupAt st .clicks d =
        (st.clicks.filter fun e => toUtcDateOnly e.timestamp = d).length) →
    (∀ d, rollupAt st .goals d =
        (st.goals.filter fun e => toUtcDateOnly e.timestamp = d).length) →
    ∀ d,
      rollupAt (run st cs) .pageViews d =
        ((run st cs).pageViews.filter fun e => toUtcDateOnly e.timestamp = d).length
    ∧ rollupAt (run st cs) .pings d =
        ((run st cs).pings.filter fun e => toUtcDateOnly e.timestamp = d).length
    ∧ rollupAt (run st cs) .clicks d =
        ((run st cs).clicks.filter fun e => toUtcDateOnly e.timestamp = d).length
    ∧ rollupAt (run st cs) .goals d =
        ((run st cs).goals.filter fun e => toUtcDateOnly e.timestamp = d).length := by
  induction cs with
  | nil => exact fun st h1 h2 h3 h4 d => ⟨h1 d, h2 d, h3 d, h4 d⟩
  | cons c cs ih =>
    intro st h1 h2 h3 h4 d
    refine ih (step st c) (fun d' => ?_) (fun d' => ?_) (fun d' => ?_) (fun d' => ?_) d
    · have hb := (step_event_balance st c d').1
      have h := h1 d'
      omega
    · have hb := (step_event_balance st c d').2.1
      have h := h2 d'
      omega
    · have hb := (step_event_balance st c d').2.2.1
      have h := h3 d'
      omega
    · have hb := (step_event_balance st c d').2.2.2
      have h := h4 d'
      omega

theorem sumDaily_single_day (st : Storage) (m : DailyMetricField) (d g l : Int)
    (hg : toUtcDateOnly g = d) (hl : toUtcDateOnly l = d) :
    sumDailyMetric st.dailyStats m (toDailyWhere (some ⟨g, l⟩)) = rollupAt st m d := by
  have hpt : ∀ r ∈ st.dailyStats,
      inDailyRange (some ⟨toUtcDateOnly g, toUtcDateOnly l⟩) r.date =
        decide (r.date = d) := by
    intro r _
    rw [hg, hl]
    by_cases hx : r.date = d
    · simp [inDailyRange, hx]
    · simp [inDailyRange, hx]
      omega
  show ((st.dailyStats.filter fun r =>
      inDailyRange (some ⟨toUtcDateOnly g, toUtcDateOnly l⟩) r.date).map
        fun r => r.metric m).sum = _
  rw [List.filter_congr hpt]
  rfl

/-! ## C1 -/

/-- C1 (counterexample): a `trackPageView` whose payload carries a fresh
session id creates the session but never bumps the `sessions` rollup:
after one such call from empty storage there is one session whose
`startTime` falls on day 0, yet the `sessions` counter for day 0 is 0
(only the `pageViews` counter is 1). -/
theorem C1_view_created_session_not_counted :
    ((run Storage.empty [viewCallFreshSession]).sessions.filter
      fun s => toUtcDateOnly s.startTime = 0).length = 1 ∧
    rollupAt (run Storage.empty [viewCallFreshSession]) .sessions 0 = 0 ∧
    rollupAt (run Storage.empty [viewCallFreshSession]) .pageViews 0 = 1 := by
  refine ⟨by decide, by decide, by decide⟩

/-- C1 (amended): starting from empty storage, after any sequence of
successful track calls, for every UTC day the `sessions` rollup counter
equals the number of sessions created by `trackSession` calls whose
resolved `startTime` falls on that day (sessions implicitly created by
view/ping/click/goal calls are not counted); each of the `pageViews`,
`pings`, `clicks` and `goals` counters equals the number of persisted
events of that type whose timestamp falls on that day; and the range-sum
of any metric over an interval lying within one day equals that day's
counter — so for the event metrics it is exactly the number of events of
that type on that day. -/
theorem C1_rollup_consistency (calls : List Call) (d g l : Int) (m : DailyMetricField) :
    rollupAt (run Storage.empty calls) .sessions d =
      ((trackSessionStarts Storage.empty calls).filter
        fun t => toUtcDateOnly t = d).length
  ∧ rollupAt (run Storage.empty calls) .pageViews d =
      ((run Storage.empty calls).pageViews.filter
        fun e => toUtcDateOnly e.timestamp = d).length
  ∧ rollupAt (run Storage.empty calls) .pings d =
      ((run Storage.empty calls).pings.filter
        fun e => toUtcDateOnly e.timestamp = d).length
  ∧ rollupAt (run Storage.empty calls) .clicks d =
      ((run Storage.empty calls).clicks.filter
        fun e => toUtcDateOnly e.timestamp = d).length
  ∧ rollupAt (run Storage.empty calls) .goals d =
      ((run Storage.empty calls).goals.filter
        fun e => toUtcDateOnly e.timestamp = d).length
  ∧ (toUtcDateOnly g = d → toUtcDateOnly l = d →
      sumDailyMetric (run Storage.empty calls).dailyStats m (toDailyWhere (some ⟨g, l⟩)) =
        rollupAt (run Storage.empty calls) m d) := by
  have hev := run_event_rollups calls Storage.empty
    (fun d' => rfl) (fun d' => rfl) (fun d' => rfl) (fun d' => rfl) d
  refine ⟨?_, hev.1, hev.2.1, hev.2.2.1, hev.2.2.2, ?_⟩
  · rw [run_sessions_starts calls Storage.empty d]
    simp [rollupAt, Storage.empty]
  · intro hg hl
    exact sumDaily_single_day (run Storage.empty calls) m d g l hg hl

/-- C1 (witness): `C1_rollup_consistency` on the concrete run
`[sessionCallA, viewCallFreshSession]`: day 0's `sessions` counter matches
the one `trackSession` creation, and the `[100ms, 50000ms]` range-sum of
`pageViews` equals day 0's counter. -/
theorem C1_rollup_consistency_witness :
    rollupAt (run Storage.empty [sessionCallA, viewCallFreshSession]) .sessions 0 =
      ((trackSessionStarts Storage.empty [sessionCallA, viewCallFreshSession]).filter
        fun t => toUtcDateOnly t = 0).length
  ∧ sumDailyMetric (run Storage.empty [sessionCallA, viewCallFreshSession]).dailyStats
      .pageViews (toDailyWhere (some ⟨100, 50000⟩)) =
      rollupAt (run Storage.empty [sessionCallA, viewCallFreshSession]) .pageViews 0 := by
  constructor
  · exact (C1_rollup_consistency [sessionCallA, viewCallFreshSession] 0 100 50000
      .pageViews).1
  · exact (C1_rollup_consistency [sessionCallA, viewCallFreshSession] 0 100 50000
      .pageViews).2.2.2.2.2 (by decide) (by decide)
